import Mathlib

/-
Shallow embedding of the Seed TodoMVC application in
src/Rust/project/src/lib.rs.

The state/reducer core is translated directly from the source:
the `Model` struct, the `Msg` enum, the `update` function, the `init`
function with its `add_mock_data` fixture, and the derived computations
performed by the view helpers (`view_toggle_all`, `view_todo_list`,
`view_footer`).

Modelling decisions:
  - `Ulid` identifiers become `Nat`.  `Ulid::new()` is an external
    time-plus-randomness source; the reducer is therefore parameterised by
    the freshly generated identifier (`fresh : Nat`), and the Ulid
    guarantee (new ids sort after previously generated ones) appears as an
    explicit hypothesis where a property depends on it.
  - `BTreeMap<Ulid, Todo>` becomes an association list `List (Nat × Todo)`
    ordered by key; `mapInsert`, `mapRemove`, `mapGet` and `toggleTodo`
    mirror `BTreeMap::insert`, `remove`, `get` and `get_mut` on such
    lists.  Iteration in key order (`values()`) is `List.map Prod.snd`.
  - `SelectedTodo.input_element` is a DOM node handle (`ElRef`); it has no
    behaviour in the state core and is omitted.
  - `Model.base_url` is a `Url` written once at startup and never read by
    the reducer or the view helpers; it is omitted.
  - `log!` calls are side effects outside the state and are dropped.
  - Reducer arms whose Rust body consists only of a `log!` call
    (`UrlChanged`, `CheckOrUncheckAll`, `SelectTodo`,
    `SelectedTodoTitleChanged`, `SaveSelectedTodo`) leave the model
    unchanged, exactly as the source does.
-/

namespace TodoApp

/-- A todo entry, from `struct Todo` in lib.rs. -/
structure Todo where
  id : Nat
  title : String
  completed : Bool
deriving DecidableEq

/-- The todo currently selected for editing, from `struct SelectedTodo`.
The `input_element : ElRef<web_sys::HtmlInputElement>` field is a DOM
handle with no state semantics and is omitted. -/
structure SelectedTodo where
  id : Nat
  title : String
deriving DecidableEq

/-- The display filter, from `enum Filter`. -/
inductive Filter where
  | All
  | Active
  | Completed
deriving DecidableEq

/-- Association list standing in for `BTreeMap<Ulid, Todo>`: entries kept
in strictly increasing key order. -/
abbrev TodoMap := List (Nat × Todo)

/-- Key lookup, mirroring `BTreeMap::get`. -/
def mapGet (k : Nat) : TodoMap → Option Todo
  | [] => none
  | (k1, v) :: rest => if k1 = k then some v else mapGet k rest

/-- Key membership test. -/
def mapContains (k : Nat) (l : TodoMap) : Bool :=
  (mapGet k l).isSome

/-- Ordered insertion, mirroring `BTreeMap::insert` (replaces the value
when the key is already present). -/
def mapInsert (k : Nat) (v : Todo) : TodoMap → TodoMap
  | [] => [(k, v)]
  | (k1, v1) :: rest =>
    if k < k1 then (k, v) :: (k1, v1) :: rest
    else if k = k1 then (k, v) :: rest
    else (k1, v1) :: mapInsert k v rest

/-- Key removal, mirroring `BTreeMap::remove`. -/
def mapRemove (k : Nat) : TodoMap → TodoMap
  | [] => []
  | (k1, v) :: rest => if k1 = k then rest else (k1, v) :: mapRemove k rest

/-- The keys of the map are strictly increasing, the `BTreeMap`
representation invariant. -/
def sortedKeys (l : TodoMap) : Prop :=
  List.Pairwise (fun a b => a.1 < b.1) l

instance (l : TodoMap) : Decidable (sortedKeys l) :=
  inferInstanceAs (Decidable (List.Pairwise _ l))

/-- The application state, from `struct Model` (minus the write-only
`base_url` field, see the header comment). -/
structure Model where
  todos : TodoMap
  new_todo_title : String
  selected_todo : Option SelectedTodo
  filter : Filter
deriving DecidableEq

/-- The message vocabulary, from `enum Msg`.  `subs::UrlChanged` carries a
`Url`; the reducer only logs it, so the payload is embedded as the path
string. -/
inductive Msg where
  | UrlChanged (url : String)
  | NewTodoTitleChanged (title : String)
  | CreateTodo
  | ToggleTodo (id : Nat)
  | RemoveTodo (id : Nat)
  | CheckOrUncheckAll
  | ClearCompleted
  | SelectTodo (optId : Option Nat)
  | SelectedTodoTitleChanged (title : String)
  | SaveSelectedTodo

/-- Whitespace trimming on a character list: drop whitespace from both
ends, mirroring `str::trim`. -/
def trimChars (cs : List Char) : List Char :=
  ((cs.dropWhile Char.isWhitespace).reverse.dropWhile Char.isWhitespace).reverse

/-- Embedding of `str::trim` (Lean strings are lists of characters, so
the trim is spelled out over the character list). -/
def strTrim (s : String) : String :=
  String.mk (trimChars s.data)

/-- Flip of the completed flag under `get_mut`, mirroring the
`Msg::ToggleTodo` arm: `todo.completed = not(todo.completed)` when the id
is found, no-op otherwise. -/
def toggleTodo (id : Nat) : TodoMap → TodoMap
  | [] => []
  | (k, t) :: rest =>
    if k = id then (k, { t with completed := !t.completed }) :: rest
    else (k, t) :: toggleTodo id rest

/-- The reducer, from `fn update` in lib.rs.  `fresh` stands for the
`Ulid::new()` call made by the `CreateTodo` arm.  Arms whose Rust body is
only a `log!` call return the model unchanged. -/
def update (msg : Msg) (fresh : Nat) (model : Model) : Model :=
  match msg with
  | Msg.UrlChanged _ => model
  | Msg.NewTodoTitleChanged title => { model with new_todo_title := title }
  | Msg.CreateTodo =>
    let title := strTrim model.new_todo_title
    if !title.data.isEmpty then
      { model with
          todos := mapInsert fresh { id := fresh, title := title, completed := false } model.todos,
          new_todo_title := "" }
    else
      model
  | Msg.ToggleTodo id => { model with todos := toggleTodo id model.todos }
  | Msg.RemoveTodo id => { model with todos := mapRemove id model.todos }
  | Msg.CheckOrUncheckAll => model
  | Msg.ClearCompleted =>
    { model with todos := model.todos.filter (fun p => !p.2.completed) }
  | Msg.SelectTodo _ => model
  | Msg.SelectedTodoTitleChanged _ => model
  | Msg.SaveSelectedTodo => model

/-- The startup fixture, from `Model::add_mock_data`: four incomplete
todos inserted with freshly generated Ulids `id_a .. id_d`. -/
def addMockData (ida idb idc idd : Nat) (m : Model) : Model :=
  let t1 := mapInsert ida { id := ida, title := "Do Right", completed := false } m.todos
  let t2 := mapInsert idb { id := idb, title := "Be The Crew", completed := false } t1
  let t3 := mapInsert idc { id := idc, title := "Own It", completed := false } t2
  let t4 := mapInsert idd { id := idd, title := "Chew The Strap", completed := false } t3
  { m with todos := t4 }

/-- The initial state, from `fn init`: empty fields, filter `All`, then
the mock data.  The four Ulids generated by `add_mock_data` are
parameters. -/
def init (ida idb idc idd : Nat) : Model :=
  addMockData ida idb idc idd
    { todos := [],
      new_todo_title := "",
      selected_todo := none,
      filter := Filter.All }

/-- Reduction of a message sequence: each step carries the message and the
identifier that `Ulid::new()` would produce at that step. -/
def run (steps : List (Msg × Nat)) (m : Model) : Model :=
  steps.foldl (fun acc s => update s.1 s.2 acc) m

/-- Derived flag from `view_toggle_all`:
`todos.values().all(|todo| todo.completed)`. -/
def all_completed (todos : TodoMap) : Bool :=
  todos.all (fun p => p.2.completed)

/-- Derived count from `view_footer`:
`todos.values().filter(|todo| todo.completed).count()`. -/
def completed_count (todos : TodoMap) : Nat :=
  (todos.filter (fun p => p.2.completed)).length

/-- Derived count from `view_footer`:
`todos.len() - completed_count`. -/
def active_count (todos : TodoMap) : Nat :=
  todos.length - completed_count todos

/-- The list of todos the view surfaces, from `view_todo_list`: it maps
over `todos.values()`, i.e. every todo in key order, without consulting
the filter. -/
def visibleTodos (m : Model) : List Todo :=
  m.todos.map Prod.snd

/-- Predicate of a display filter as the spec describes it: all todos for
`All`, the incomplete ones for `Active`, the completed ones for
`Completed`. -/
def filterPred : Filter → Todo → Bool
  | Filter.All, _ => true
  | Filter.Active, t => !t.completed
  | Filter.Completed, t => t.completed

/-- Visible-todos projection following the words of the spec
(`visibleTodos = filter(todos, by current Filter)` preserving identifier
order), for comparison with the `visibleTodos` actually computed by
`view_todo_list`. -/
def visibleTodosSpec (m : Model) : List Todo :=
  (m.todos.map Prod.snd).filter (filterPred m.filter)

/-- The selection-dangling invariant: when a selection is present its id
is a key of the todos map. -/
def selectionInv (m : Model) : Bool :=
  match m.selected_todo with
  | none => true
  | some s => mapContains s.id m.todos

/-
Helper lemmas shared by the claim theorems.
-/

/-- No arm of `update` writes the `selected_todo` field: the three
selection arms are logging stubs in the source, and no other arm
mentions the field. -/
theorem update_selected_todo (msg : Msg) (fresh : Nat) (m : Model) :
    (update msg fresh m).selected_todo = m.selected_todo := by
  cases msg with
  | CreateTodo =>
    unfold update
    by_cases h : (!(strTrim m.new_todo_title).data.isEmpty) = true <;> simp [h]
  | UrlChanged url => rfl
  | NewTodoTitleChanged title => rfl
  | ToggleTodo id => rfl
  | RemoveTodo id => rfl
  | CheckOrUncheckAll => rfl
  | ClearCompleted => rfl
  | SelectTodo optId => rfl
  | SelectedTodoTitleChanged title => rfl
  | SaveSelectedTodo => rfl

/-- Reducing a whole message sequence never writes `selected_todo`. -/
theorem run_selected_todo (steps : List (Msg × Nat)) (m : Model) :
    (run steps m).selected_todo = m.selected_todo := by
  induction steps generalizing m with
  | nil => rfl
  | cons s rest ih =>
    simp only [run, List.foldl_cons] at *
    rw [ih, update_selected_todo]

/- Claim theorems. -/

/-- C1: for every sequence of messages dispatched from the initial state,
if the resulting selection is present then its id is a key of the todos
map.  (It holds because no message ever sets the selection: the selection
arms of `update` are logging stubs, so the selection stays `none`.) -/
theorem selection_invariant_reachable (ida idb idc idd : Nat)
    (steps : List (Msg × Nat)) :
    selectionInv (run steps (init ida idb idc idd)) = true := by
  have h := run_selected_todo steps (init ida idb idc idd)
  have hinit : (init ida idb idc idd).selected_todo = none := rfl
  rw [hinit] at h
  unfold selectionInv
  rw [h]

/-- C10: the three selection messages (`SelectTodo`,
`SelectedTodoTitleChanged`, `SaveSelectedTodo`) leave every field of the
model unchanged: their `update` arms only log. -/
theorem selection_msgs_noop (m : Model) (fresh : Nat) (optId : Option Nat)
    (title : String) :
    update (Msg.SelectTodo optId) fresh m = m ∧
    update (Msg.SelectedTodoTitleChanged title) fresh m = m ∧
    update Msg.SaveSelectedTodo fresh m = m :=
  ⟨rfl, rfl, rfl⟩

/-- Concrete state for C2: two todos, exactly one completed. -/
def mC2 : Model :=
  { todos := [(1, { id := 1, title := "a", completed := true }),
              (2, { id := 2, title := "b", completed := false })],
    new_todo_title := "",
    selected_todo := none,
    filter := Filter.All }

/-- C2: the `CheckOrUncheckAll` arm of `update` is a logging stub.  On a
state with two todos of which one is completed, the claim (and the spec)
say both todos become completed; the code leaves the state unchanged, so
afterwards not every todo is completed. -/
theorem checkOrUncheckAll_is_stub :
    update Msg.CheckOrUncheckAll 0 mC2 = mC2 ∧
    all_completed (update Msg.CheckOrUncheckAll 0 mC2).todos = false :=
  ⟨rfl, rfl⟩

/-- C5: the `UrlChanged` arm of `update` is a logging stub.  On the
initial state, the claim (and the spec) say the URL path `/active` sets
the filter to `Active`; the code leaves the state (and hence the filter,
still `All`) unchanged. -/
theorem urlChanged_is_stub :
    update (Msg.UrlChanged "/active") 0 (init 1 2 3 4) = init 1 2 3 4 ∧
    (update (Msg.UrlChanged "/active") 0 (init 1 2 3 4)).filter = Filter.All ∧
    Filter.All ≠ Filter.Active :=
  ⟨rfl, rfl, by decide⟩

/-- Lookup of a key strictly below every key of the map fails. -/
theorem mapGet_eq_none_of_lt (c : Nat) (l : TodoMap)
    (h : ∀ p ∈ l, c < p.1) : mapGet c l = none := by
  induction l with
  | nil => rfl
  | cons hd tl ih =>
    have hc : c < hd.1 := h hd (List.mem_cons_self hd tl)
    have hne : hd.1 ≠ c := Nat.ne_of_gt hc
    calc mapGet c (hd :: tl)
        = mapGet c tl := by
          rw [show (hd :: tl : TodoMap) = (hd.1, hd.2) :: tl from rfl, mapGet, if_neg hne]
      _ = none := ih (fun p hp => h p (List.mem_cons_of_mem hd hp))

/-- Lookup after removal on a well-formed map: the removed key is gone and
every other key is untouched. -/
theorem mapGet_mapRemove (l : TodoMap) (id : Nat) (hs : sortedKeys l)
    (k : Nat) :
    mapGet k (mapRemove id l) = if k = id then none else mapGet k l := by
  induction l with
  | nil =>
    unfold mapRemove mapGet
    split <;> rfl
  | cons hd tl ih =>
    obtain ⟨h1, h2⟩ := List.pairwise_cons.mp hs
    rw [show (hd :: tl : TodoMap) = (hd.1, hd.2) :: tl from rfl, mapRemove]
    by_cases hid : hd.1 = id
    · rw [if_pos hid]
      by_cases hk : k = id
      · rw [if_pos hk, mapGet_eq_none_of_lt]
        intro p hp
        rw [hk, ← hid]
        exact h1 p hp
      · rw [if_neg hk, mapGet, if_neg]
        rw [hid]
        intro hkk
        exact hk hkk.symm
    · rw [if_neg hid, mapGet]
      by_cases hhd : hd.1 = k
      · have hk : k ≠ id := by rw [← hhd]; intro hkk; exact hid hkk
        rw [if_pos hhd, if_neg hk, mapGet, if_pos hhd]
      · rw [if_neg hhd, ih h2]
        by_cases hk : k = id
        · rw [if_pos hk, if_pos hk]
        · rw [if_neg hk, if_neg hk, mapGet, if_neg hhd]

/-- Inserting a key above every key of the map appends at the end. -/
theorem mapInsert_append (k : Nat) (v : Todo) (l : TodoMap)
    (h : ∀ p ∈ l, p.1 < k) : mapInsert k v l = l ++ [(k, v)] := by
  induction l with
  | nil => rfl
  | cons hd tl ih =>
    have hk : hd.1 < k := h hd (List.mem_cons_self hd tl)
    rw [show (hd :: tl : TodoMap) = (hd.1, hd.2) :: tl from rfl, mapInsert,
      if_neg (Nat.not_lt_of_lt hk), if_neg (Nat.ne_of_gt hk),
      ih (fun p hp => h p (List.mem_cons_of_mem hd hp))]
    rfl

/-- Concrete state for C3 and its witness: one todo, selected. -/
def mC3 : Model :=
  { todos := [(1, { id := 1, title := "a", completed := false })],
    new_todo_title := "",
    selected_todo := some { id := 1, title := "a" },
    filter := Filter.All }

/-- C3 counterexample: on a state whose selection points at id 1,
`RemoveTodo(1)` deletes the todo but leaves the selection in place,
whereas the claim requires the selection to be cleared in the same
transition. -/
theorem removeTodo_leaves_selection :
    mC3.selected_todo = some { id := 1, title := "a" } ∧
    mapGet 1 (update (Msg.RemoveTodo 1) 0 mC3).todos = none ∧
    (update (Msg.RemoveTodo 1) 0 mC3).selected_todo
      = some { id := 1, title := "a" } :=
  ⟨rfl, rfl, rfl⟩

/-- C3 (amended): `RemoveTodo(id)` deletes the entry with that id when
present (no-op otherwise) and changes nothing else; in particular the
selection is left unchanged, not cleared. -/
theorem removeTodo_spec (m : Model) (id fresh : Nat)
    (hs : sortedKeys m.todos) :
    (update (Msg.RemoveTodo id) fresh m).todos = mapRemove id m.todos ∧
    (∀ k, mapGet k (mapRemove id m.todos) =
      if k = id then none else mapGet k m.todos) ∧
    (update (Msg.RemoveTodo id) fresh m).selected_todo = m.selected_todo ∧
    (update (Msg.RemoveTodo id) fresh m).new_todo_title = m.new_todo_title ∧
    (update (Msg.RemoveTodo id) fresh m).filter = m.filter :=
  ⟨rfl, fun k => mapGet_mapRemove m.todos id hs k, rfl, rfl, rfl⟩

/-- Witness for the amended C3 theorem at the concrete state `mC3`. -/
theorem removeTodo_spec_witness :
    sortedKeys mC3.todos ∧
    mapGet 1 (mapRemove 1 mC3.todos) = none ∧
    (update (Msg.RemoveTodo 1) 0 mC3).selected_todo = mC3.selected_todo := by
  have h := removeTodo_spec mC3 1 0 (by decide)
  refine ⟨by decide, ?_, h.2.2.1⟩
  have hk := h.2.1 1
  simpa using hk

/-- Concrete state for the C4 witness: one todo, a padded draft. -/
def mC4 : Model :=
  { todos := [(1, { id := 1, title := "a", completed := false })],
    new_todo_title := " buy milk ",
    selected_todo := none,
    filter := Filter.All }

/-- C4: `CreateTodo` with a draft whose trimmed value is empty leaves the
state (draft included) unchanged; with a non-empty trimmed value it
appends a new incomplete todo carrying the fresh id at the end of the
key-ordered collection and clears the draft.  The hypothesis `hfresh` is
the identifier-generation contract: a freshly generated Ulid sorts after
every previously generated one. -/
theorem createTodo_spec (m : Model) (fresh : Nat)
    (hfresh : ∀ p ∈ m.todos, p.1 < fresh) :
    ((strTrim m.new_todo_title).data.isEmpty = true →
      update Msg.CreateTodo fresh m = m) ∧
    ((strTrim m.new_todo_title).data.isEmpty = false →
      update Msg.CreateTodo fresh m =
        { m with
            todos := m.todos ++
              [(fresh,
                { id := fresh, title := strTrim m.new_todo_title,
                  completed := false })],
            new_todo_title := "" }) := by
  constructor
  · intro h
    unfold update
    simp [h]
  · intro h
    unfold update
    simp only [h, Bool.not_false, if_true]
    rw [mapInsert_append fresh _ m.todos hfresh]

/-- Witness for the C4 theorem: creating from the draft `" buy milk "`
with fresh id 5 appends the trimmed todo and clears the draft. -/
theorem createTodo_spec_witness :
    (∀ p ∈ mC4.todos, p.1 < 5) ∧
    update Msg.CreateTodo 5 mC4 =
      { mC4 with
          todos := mC4.todos ++
            [(5, { id := 5, title := strTrim mC4.new_todo_title,
                   completed := false })],
          new_todo_title := "" } :=
  ⟨by decide, (createTodo_spec mC4 5 (by decide)).2 (by decide)⟩

/-- Splitting a list by a predicate partitions its length. -/
theorem length_filter_add_length_filter_not (l : TodoMap)
    (p : Nat × Todo → Bool) :
    (l.filter p).length + (l.filter (fun x => !p x)).length = l.length := by
  induction l with
  | nil => rfl
  | cons hd tl ih =>
    by_cases h : p hd = true
    · simp [List.filter_cons, h, Nat.succ_add, ← ih]
    · simp [List.filter_cons, h, ← ih]
      omega

/-- The active count of `view_footer` counts the incomplete todos. -/
theorem active_count_eq_filter (todos : TodoMap) :
    active_count todos = (todos.filter (fun p => !p.2.completed)).length := by
  unfold active_count completed_count
  have h := length_filter_add_length_filter_not todos (fun p => p.2.completed)
  omega

/-- C8: the derived counts of `view_footer` satisfy
`activeCount + completedCount = totalCount`, and the active count is the
number of incomplete todos. -/
theorem counts_partition (todos : TodoMap) :
    active_count todos + completed_count todos = todos.length ∧
    active_count todos = (todos.filter (fun p => !p.2.completed)).length := by
  refine ⟨?_, active_count_eq_filter todos⟩
  have h := length_filter_add_length_filter_not todos (fun p => p.2.completed)
  unfold active_count completed_count
  omega

/-- C7 counterexample: on the empty collection the flag computed by
`view_toggle_all` (`todos.values().all(..)`) is `true`, while the claim
says the flag equals `totalCount > 0 && activeCount == 0`, which is
`false` there. -/
theorem allCompleted_empty_counterexample :
    all_completed ([] : TodoMap) = true ∧
    all_completed ([] : TodoMap) ≠
      (decide (0 < List.length ([] : TodoMap)) &&
        decide (active_count [] = 0)) := by
  decide

/-- C7 (amended): the flag computed by `view_toggle_all` equals
`activeCount == 0` with no emptiness guard, so it is `true` on the empty
collection.  (The rendering layer never shows it then: `view` only
renders `view_main` when the collection is non-empty.) -/
theorem allCompleted_eq_activeCount_zero (todos : TodoMap) :
    all_completed todos = decide (active_count todos = 0) := by
  rw [active_count_eq_filter]
  cases h : all_completed todos
  · rw [eq_comm, decide_eq_false_iff_not]
    unfold all_completed at h
    rw [List.all_eq_false] at h
    obtain ⟨x, hx, hpx⟩ := h
    have hmem : x ∈ todos.filter (fun p => !p.2.completed) :=
      List.mem_filter.mpr ⟨hx, by simp [hpx]⟩
    have hlen := List.length_pos.mpr (List.ne_nil_of_mem hmem)
    omega
  · rw [eq_comm, decide_eq_true_eq]
    unfold all_completed at h
    rw [List.all_eq_true] at h
    have hnil : todos.filter (fun p => !p.2.completed) = [] := by
      rw [List.filter_eq_nil_iff]
      intro a ha
      simp [h a ha]
    rw [hnil]
    rfl

/-- Concrete state for C6: one completed todo under the Active filter. -/
def mC6 : Model :=
  { todos := [(1, { id := 1, title := "a", completed := true })],
    new_todo_title := "",
    selected_todo := none,
    filter := Filter.Active }

/-- C6 counterexample: with filter `Active` and a single completed todo,
the list rendered by `view_todo_list` still contains the completed todo,
while the claim says the visible todos are exactly those passing the
Active predicate (none here). -/
theorem visibleTodos_ignores_filter :
    mC6.filter = Filter.Active ∧
    visibleTodos mC6 ≠ visibleTodosSpec mC6 ∧
    visibleTodos mC6 = [{ id := 1, title := "a", completed := true }] := by
  refine ⟨rfl, ?_, rfl⟩
  decide

/-- Every todo passes the `All` predicate. -/
theorem filter_filterPred_all (l : List Todo) :
    l.filter (filterPred Filter.All) = l := by
  induction l with
  | nil => rfl
  | cons hd tl ih => simp [List.filter_cons, filterPred, ih]

/-- C6 (amended): `view_todo_list` never consults the filter; the visible
todos are exactly the todos passing the `All` predicate — that is, every
todo — in identifier order, whatever the current filter is. -/
theorem visibleTodos_all_todos (m : Model) :
    visibleTodos m = (m.todos.map Prod.snd).filter (filterPred Filter.All) ∧
    visibleTodos m = m.todos.map Prod.snd :=
  ⟨(filter_filterPred_all (m.todos.map Prod.snd)).symm, rfl⟩

/-- Concrete state for C9 and its witness: todo 1 present, and a stale
selection pointing at the absent id 2. -/
def mC9 : Model :=
  { todos := [(1, { id := 1, title := "a", completed := false })],
    new_todo_title := "",
    selected_todo := some { id := 2, title := "zzz" },
    filter := Filter.All }

/-- C9 counterexample: id 1 is present, yet after
`SelectTodo(some 1)` followed by `SaveSelectedTodo` the selection is not
cleared (both arms are logging stubs), while the claim requires the final
selection to be `none`. -/
theorem selectSave_does_not_clear :
    mapContains 1 mC9.todos = true ∧
    (update Msg.SaveSelectedTodo 0
      (update (Msg.SelectTodo (some 1)) 0 mC9)).selected_todo ≠ none := by
  refine ⟨by decide, ?_⟩
  decide

/-- C9 (amended): for any id `x` present in the collection,
`SelectTodo(some x)` followed immediately by `SaveSelectedTodo` leaves the
whole state unchanged: todo `x` keeps its title, and the selection keeps
its previous value (so it ends as `none` exactly when it started as
`none`), rather than being cleared. -/
theorem selectSave_roundtrip (m : Model) (x f1 f2 : Nat)
    (hx : mapContains x m.todos = true) :
    update Msg.SaveSelectedTodo f2 (update (Msg.SelectTodo (some x)) f1 m)
      = m ∧
    mapGet x (update Msg.SaveSelectedTodo f2
      (update (Msg.SelectTodo (some x)) f1 m)).todos = mapGet x m.todos ∧
    (update Msg.SaveSelectedTodo f2
      (update (Msg.SelectTodo (some x)) f1 m)).selected_todo
      = m.selected_todo ∧
    mapContains x (update Msg.SaveSelectedTodo f2
      (update (Msg.SelectTodo (some x)) f1 m)).todos = true :=
  ⟨rfl, rfl, rfl, hx⟩

/-- Witness for the amended C9 theorem at the concrete state `mC9`. -/
theorem selectSave_roundtrip_witness :
    mapContains 1 mC9.todos = true ∧
    update Msg.SaveSelectedTodo 0 (update (Msg.SelectTodo (some 1)) 0 mC9)
      = mC9 :=
  ⟨by decide, (selectSave_roundtrip mC9 1 0 0 (by decide)).1⟩

end TodoApp
